import Mathlib

/-!
Verification of the submission-lifecycle, balance-ledger, access-policy and
audit subsystem of the victoryweb application.  The definitions below are a
shallow embedding of the JavaScript source: the Prisma data model
(migration file), the admin router (review, bulk review, user update,
add-balance), the submissions router (create, delete), the auth middleware
(isAuthenticated, isAdmin, canModifyUser, logAdminAction) and the passport
identity-resolution callback.  Database rows are lists, requests are plain
arguments, and the possibility of a database write failing mid-handler is
made explicit through a `failAt` schedule, because the handlers issue their
writes sequentially (or via Promise.all) with no transaction.
-/

namespace VictoryWeb

attribute [local semireducible] Rat.add Rat.mul Rat.inv Rat.sub

/-- Role enum from the Prisma schema: USER, MODERATOR, ADMIN. -/
inductive Role where
  | USER
  | MODERATOR
  | ADMIN
deriving DecidableEq, Repr

/-- SubmissionStatus enum: PENDING, APPROVED, REJECTED. -/
inductive SubmissionStatus where
  | PENDING
  | APPROVED
  | REJECTED
deriving DecidableEq, Repr

/-- FileType enum: IMAGE, VIDEO. -/
inductive FileType where
  | IMAGE
  | VIDEO
deriving DecidableEq, Repr

/-- PayoutStatus enum: PENDING, COMPLETED, CANCELLED. -/
inductive PayoutStatus where
  | PENDING
  | COMPLETED
  | CANCELLED
deriving DecidableEq, Repr

/-- Row of the users table (fields relevant to the claims). -/
structure User where
  id : String
  epicId : String
  nickname : String
  balance : Rat
  role : Role
  isBanned : Bool
  lastSubmission : Option Nat
deriving DecidableEq, Repr

/-- Row of the submissions table. -/
structure Submission where
  id : String
  userId : String
  fileUrl : String
  fileName : String
  fileType : FileType
  fileSize : Nat
  category : String
  description : Option String
  status : SubmissionStatus
  rejectReason : Option String
  reviewedBy : Option String
  reviewedAt : Option Nat
deriving DecidableEq, Repr

/-- Row of the payouts table. -/
structure Payout where
  userId : String
  amount : Rat
  reason : String
  status : PayoutStatus
  adminId : String
  completedAt : Option Nat
deriving DecidableEq, Repr

/-- Row of the admin_logs table. -/
structure AdminLog where
  adminId : String
  action : String
  details : String
deriving DecidableEq, Repr

/-- Persistent state: the four relations plus the blob store
(upload directory keyed by file url). -/
structure St where
  users : List User
  submissions : List Submission
  payouts : List Payout
  adminLogs : List AdminLog
  blobs : List String
deriving DecidableEq, Repr

/-- Empty database and empty upload directory. -/
def St.init : St := ⟨[], [], [], [], []⟩

/-- JavaScript `x || null` on an optional string: undefined and the empty
string are falsy and collapse to null. -/
def jsOrNull (o : Option String) : Option String :=
  match o with
  | some s => if s = "" then none else some s
  | none => none

/-- JavaScript string truthiness: undefined/null and the empty string are
falsy. -/
def jsTruthy (o : Option String) : Bool :=
  match o with
  | some s => decide (s ≠ "")
  | none => false

/-- JavaScript `s.startsWith (p)`: character-wise prefix test. -/
def jsStartsWith (s p : String) : Bool :=
  decide (s.data.take p.data.length = p.data)

/-- JavaScript `s.slice (-n)`: the last n characters, or the whole string
when it is shorter than n. -/
def lastN (n : Nat) (s : String) : String :=
  String.mk (s.data.drop (s.data.length - n))

/-- canModifyUser from middleware/auth.js: false on self, true otherwise
(the MODERATOR branch and the fall-through both return true). -/
def canModifyUser (adminUser : User) (targetUserId : String) : Bool :=
  if adminUser.id = targetUserId then
    false
  else if adminUser.role = Role.MODERATOR then
    true
  else
    true

/-- isAdmin middleware: role ADMIN or MODERATOR. -/
def isAdminCheck (u : User) : Bool :=
  decide (u.role = Role.ADMIN ∨ u.role = Role.MODERATOR)

/-- logAdminAction from middleware/auth.js: appends an admin_logs row; a
failure of the insert is caught inside the helper and swallowed, so the
caller proceeds either way. -/
def logAdminAction (logFails : Bool) (adminId action details : String) (st : St) : St :=
  if logFails then st
  else { st with adminLogs := st.adminLogs ++ [⟨adminId, action, details⟩] }

/-- Body of PATCH /submissions/:id/review. -/
structure ReviewBody where
  status : Option String
  rejectReason : Option String
  bonusAmount : Option Rat
deriving DecidableEq, Repr

/-- Joi reviewSubmissionSchema: status required in APPROVED/REJECTED;
rejectReason a (non-empty) string, required when status is REJECTED and
otherwise optional, with no maximum length; bonusAmount optional in
[0, 1000]. -/
def reviewBodyValid (b : ReviewBody) : Bool :=
  (match b.status with
   | some s => decide (s = "APPROVED" ∨ s = "REJECTED")
   | none => false)
  && (match b.rejectReason with
      | some r => decide (r ≠ "")
      | none => decide (b.status ≠ some "REJECTED"))
  && (match b.bonusAmount with
      | some a => decide (0 ≤ a ∧ a ≤ 1000)
      | none => true)

/-- Outcomes of PATCH /submissions/:id/review. -/
inductive ReviewResp where
  | joiError
  | notFound
  | alreadyReviewed
  | serverError
  | ok (submission : Submission)
deriving DecidableEq, Repr

/-- prisma.submission.findUnique by id. -/
def findSubmission (st : St) (sid : String) : Option Submission :=
  st.submissions.find? (fun s => decide (s.id = sid))

/-- prisma.submission.update by id (the id is a primary key; the map form
rewrites every row carrying the id). -/
def updateSubmissionRow (st : St) (sid : String) (f : Submission → Submission) : St :=
  { st with submissions := st.submissions.map (fun s => if s.id = sid then f s else s) }

/-- prisma.user.update with balance increment. -/
def incrementBalance (st : St) (uid : String) (amt : Rat) : St :=
  { st with users := st.users.map (fun u => if u.id = uid then { u with balance := u.balance + amt } else u) }

/-- Status value written by the review handlers, from the validated status
string. -/
def statusOfString (s : Option String) : SubmissionStatus :=
  if s = some "APPROVED" then SubmissionStatus.APPROVED else SubmissionStatus.REJECTED

/-- JavaScript `value.bonusAmount > 0` (undefined compares false). -/
def bonusPositive (b : Option Rat) : Bool :=
  match b with
  | some a => decide (0 < a)
  | none => false

/-- Data object of the prisma.submission.update call in the review
handler: status from the validated body, rejectReason via the JavaScript
or-null, reviewer and review time recorded. -/
def reviewUpdated (admin : User) (body : ReviewBody) (now : Nat) (sub : Submission) : Submission :=
  { sub with
    status := statusOfString body.status
    rejectReason := jsOrNull body.rejectReason
    reviewedBy := some admin.id
    reviewedAt := some now }

/-- Payout row written by the review bonus block. -/
def reviewPayout (admin : User) (body : ReviewBody) (now : Nat) (sub : Submission) : Payout :=
  ⟨sub.userId, body.bonusAmount.getD 0,
   "Approved submission: " ++ sub.category,
   PayoutStatus.COMPLETED, admin.id, some now⟩

/-- Write sequence of the review handler once validation and the PENDING
check have passed and the submission update has succeeded: optional
balance increment and payout insert (approved with positive bonus only),
then the audit entry. -/
def reviewCommit (failAt : Option Nat) (admin : User) (sid : String) (body : ReviewBody)
    (now : Nat) (st : St) (sub : Submission) : ReviewResp × St :=
  let updated := reviewUpdated admin body now sub
  let st1 := updateSubmissionRow st sid (fun _ => updated)
  if body.status = some "APPROVED" ∧ bonusPositive body.bonusAmount then
    if failAt = some 1 then (.serverError, st1)
    else
      let st2 := incrementBalance st1 sub.userId (body.bonusAmount.getD 0)
      if failAt = some 2 then (.serverError, st2)
      else
        (.ok updated, logAdminAction (failAt = some 3) admin.id "REVIEW_SUBMISSION" ""
          { st2 with payouts := st2.payouts ++ [reviewPayout admin body now sub] })
  else
    (.ok updated, logAdminAction (failAt = some 3) admin.id "REVIEW_SUBMISSION" "" st1)

/-- PATCH /submissions/:id/review.  Writes are issued one after another
with no transaction; `failAt` selects the first write that throws
(0 = submission update, 1 = balance increment, 2 = payout insert,
3 = admin-log insert, whose failure is swallowed by logAdminAction).
Every write that already succeeded stays committed when a later one
throws and the handler falls into its catch block (500). -/
def reviewSubmission (failAt : Option Nat) (admin : User) (sid : String)
    (body : ReviewBody) (now : Nat) (st : St) : ReviewResp × St :=
  if !reviewBodyValid body then (.joiError, st)
  else
    match findSubmission st sid with
    | none => (.notFound, st)
    | some sub =>
      if sub.status ≠ SubmissionStatus.PENDING then (.alreadyReviewed, st)
      else if failAt = some 0 then (.serverError, st)
      else reviewCommit failAt admin sid body now st sub

/-- Body of PATCH /submissions/bulk-review (submissionIds is none when the
request carries no array). -/
structure BulkBody where
  submissionIds : Option (List String)
  status : Option String
  rejectReason : Option String
deriving DecidableEq, Repr

/-- Outcomes of PATCH /submissions/bulk-review. -/
inductive BulkResp where
  | badRequest (msg : String)
  | ok (count : Nat)
deriving DecidableEq, Repr

/-- Where-clause of the bulk updateMany: id among the selected ids and
status still PENDING. -/
def bulkMatches (ids : List String) (s : Submission) : Bool :=
  decide (s.id ∈ ids ∧ s.status = SubmissionStatus.PENDING)

/-- PATCH /submissions/bulk-review: hand-rolled validation, then a single
conditional updateMany whose count is returned; no balance or payout
writes at all. -/
def bulkReview (admin : User) (body : BulkBody) (now : Nat) (st : St) : BulkResp × St :=
  match body.submissionIds with
  | none => (.badRequest "No submissions selected", st)
  | some ids =>
    if ids.isEmpty then (.badRequest "No submissions selected", st)
    else if !(decide (body.status = some "APPROVED" ∨ body.status = some "REJECTED")) then
      (.badRequest "Invalid status", st)
    else if body.status = some "REJECTED" ∧ !jsTruthy body.rejectReason then
      (.badRequest "Reject reason required", st)
    else
      let newStatus := statusOfString body.status
      let count := (st.submissions.filter (bulkMatches ids)).length
      let st1 := { st with submissions := st.submissions.map (fun s =>
        if bulkMatches ids s then
          { s with
            status := newStatus
            rejectReason := if newStatus = SubmissionStatus.REJECTED then body.rejectReason else none
            reviewedBy := some admin.id
            reviewedAt := some now }
        else s) }
      (.ok count, logAdminAction false admin.id "BULK_REVIEW_SUBMISSIONS" "" st1)

/-- Outcomes of DELETE /:id on the submissions router. -/
inductive DeleteResp where
  | notFound
  | ok
deriving DecidableEq, Repr

/-- DELETE /:id: a single findFirst with owner and PENDING folded into the
where-clause; any miss (wrong owner, terminal status, or absent row) is
the same 404; on a hit the blob is unlinked and the row deleted. -/
def deleteSubmission (user : User) (sid : String) (st : St) : DeleteResp × St :=
  match st.submissions.find? (fun s =>
      decide (s.id = sid ∧ s.userId = user.id ∧ s.status = SubmissionStatus.PENDING)) with
  | none => (.notFound, st)
  | some sub =>
    let st1 := { st with blobs := st.blobs.filter (fun b => decide (b ≠ sub.fileUrl)) }
    (.ok, { st1 with submissions := st1.submissions.filter (fun s => decide (s.id ≠ sid)) })

/-- Multer file metadata as seen by the create handler; the blob named by
`filename` has already been written to the upload directory by the
middleware before the handler body runs. -/
structure FileMeta where
  filename : String
  originalname : String
  mimetype : String
  size : Nat
deriving DecidableEq, Repr

/-- Body of POST / on the submissions router. -/
structure CreateBody where
  category : Option String
  description : Option String
deriving DecidableEq, Repr

/-- Joi createSubmissionSchema: category required, 2 to 50 characters;
description optional, non-empty, at most 500 characters. -/
def createBodyValid (b : CreateBody) : Bool :=
  (match b.category with
   | some c => decide (2 ≤ c.length ∧ c.length ≤ 50)
   | none => false)
  && (match b.description with
      | some d => decide (d ≠ "" ∧ d.length ≤ 500)
      | none => true)

/-- Data object of the prisma.submission.create call: fresh id, owning
user, blob url derived from the staged filename, IMAGE for image/*
mimetypes and VIDEO otherwise, initial status PENDING with empty review
fields. -/
def createdRow (user : User) (body : CreateBody) (f : FileMeta) (sid : String) : Submission :=
  { id := sid
    userId := user.id
    fileUrl := "/uploads/" ++ f.filename
    fileName := f.originalname
    fileType := if jsStartsWith f.mimetype "image/" then FileType.IMAGE else FileType.VIDEO
    fileSize := f.size
    category := body.category.getD ""
    description := jsOrNull body.description
    status := SubmissionStatus.PENDING
    rejectReason := none
    reviewedBy := none
    reviewedAt := none }

/-- Outcomes of POST / on the submissions router. -/
inductive CreateResp where
  | banned
  | joiError
  | fileRequired
  | serverError
  | created (submission : Submission)
deriving DecidableEq, Repr

/-- POST / on the submissions router.  The early validation returns
(banned, Joi failure, missing file) leave the already-staged blob in
place; only the catch block, reached when a database write throws
(dbFails, or a duplicate primary key), unlinks the staged file. -/
def createSubmission (dbFails : Bool) (user : User) (body : CreateBody)
    (file : Option FileMeta) (sid : String) (now : Nat) (st : St) : CreateResp × St :=
  if user.isBanned then (.banned, st)
  else if !createBodyValid body then (.joiError, st)
  else
    match file with
    | none => (.fileRequired, st)
    | some f =>
      if dbFails || st.submissions.any (fun s => decide (s.id = sid)) then
        (.serverError, { st with blobs := st.blobs.filter (fun b => decide (b ≠ "/uploads/" ++ f.filename)) })
      else
        (.created (createdRow user body f sid),
         { st with
           submissions := st.submissions ++ [createdRow user body f sid]
           users := st.users.map (fun u =>
             if u.id = user.id then { u with lastSubmission := some now } else u) })

/-- Body of POST /users/:id/add-balance. -/
structure AddBalanceBody where
  amount : Option Rat
  reason : Option String
deriving DecidableEq, Repr

/-- Joi addBalanceSchema: amount required in [0.01, 10000]; reason required,
3 to 200 characters. -/
def addBalanceBodyValid (b : AddBalanceBody) : Bool :=
  (match b.amount with
   | some a => decide ((1 : Rat) / 100 ≤ a ∧ a ≤ 10000)
   | none => false)
  && (match b.reason with
      | some r => decide (3 ≤ r.length ∧ r.length ≤ 200)
      | none => false)

/-- Outcomes of POST /users/:id/add-balance. -/
inductive AddBalanceResp where
  | joiError
  | forbidden
  | notFound
  | serverError
  | ok (newBalance : Rat)
deriving DecidableEq, Repr

/-- POST /users/:id/add-balance.  The balance increment and the payout
insert run inside a Promise.all with no transaction: a rejection of one
write does not undo the other, so `failAt = some 0` drops only the
balance write and `failAt = some 1` drops only the payout insert, the
handler landing in its catch block (500) either way. -/
def addBalance (failAt : Option Nat) (admin : User) (targetId : String)
    (body : AddBalanceBody) (now : Nat) (st : St) : AddBalanceResp × St :=
  if !addBalanceBodyValid body then (.joiError, st)
  else if !canModifyUser admin targetId then (.forbidden, st)
  else
    match st.users.find? (fun u => decide (u.id = targetId)) with
    | none => (.notFound, st)
    | some _ =>
      let amt := body.amount.getD 0
      let stBal := if failAt = some 0 then st else incrementBalance st targetId amt
      let stBoth := if failAt = some 1 then stBal
        else { stBal with payouts := stBal.payouts ++
          [⟨targetId, amt, (body.reason.getD ""), PayoutStatus.COMPLETED, admin.id, some now⟩] }
      if failAt = some 0 ∨ failAt = some 1 then (.serverError, stBoth)
      else
        (.ok (((stBoth.users.find? (fun u => decide (u.id = targetId))).map User.balance).getD 0),
         logAdminAction false admin.id "ADD_BALANCE" "" stBoth)

/-- Body of PATCH /users/:id. -/
structure UpdateUserBody where
  role : Option String
  isBanned : Option Bool
  balance : Option Rat
deriving DecidableEq, Repr

/-- Joi updateUserSchema: role optional among USER/MODERATOR/ADMIN,
isBanned optional boolean, balance optional in [0, 100000]. -/
def updateUserBodyValid (b : UpdateUserBody) : Bool :=
  (match b.role with
   | some r => decide (r = "USER" ∨ r = "MODERATOR" ∨ r = "ADMIN")
   | none => true)
  && (match b.balance with
      | some x => decide (0 ≤ x ∧ x ≤ 100000)
      | none => true)

/-- Role value written for a validated role string. -/
def roleOfString (r : String) : Role :=
  if r = "MODERATOR" then Role.MODERATOR
  else if r = "ADMIN" then Role.ADMIN
  else Role.USER

/-- Outcomes of PATCH /users/:id. -/
inductive UpdateUserResp where
  | joiError
  | forbidden
  | notFound
  | roleForbidden
  | ok (user : User)
deriving DecidableEq, Repr

/-- Field-wise application of the validated patch, as prisma.user.update
with data: value. -/
def applyUserPatch (body : UpdateUserBody) (u : User) : User :=
  { u with
    role := match body.role with
            | some r => roleOfString r
            | none => u.role
    isBanned := body.isBanned.getD u.isBanned
    balance := body.balance.getD u.balance }

/-- PATCH /users/:id: Joi validation, canModifyUser, findUnique, then the
role-change gate (only role ADMIN may set a role), then the update. -/
def updateUser (admin : User) (targetId : String) (body : UpdateUserBody) (st : St) :
    UpdateUserResp × St :=
  if !updateUserBodyValid body then (.joiError, st)
  else if !canModifyUser admin targetId then (.forbidden, st)
  else
    match st.users.find? (fun u => decide (u.id = targetId)) with
    | none => (.notFound, st)
    | some user =>
      if body.role.isSome ∧ admin.role ≠ Role.ADMIN then (.roleForbidden, st)
      else
        let st1 := { st with users := st.users.map (fun u =>
          if u.id = targetId then applyUserPatch body u else u) }
        (.ok (applyUserPatch body user), logAdminAction false admin.id "UPDATE_USER" "" st1)

/-- Identity payload delivered by the Epic endpoint: account id plus an
optional display name. -/
structure EpicUser where
  accountId : String
  displayName : Option String
deriving DecidableEq, Repr

/-- Passport verify callback: find the user by epic id; when absent,
create one whose role is ADMIN exactly when the id sits in the
ADMIN_EPIC_IDS allow-list and whose nickname falls back to
User_ plus the last 8 characters of the account id when the provider
name is missing or empty; when present, overwrite the nickname with the
provider name if one was supplied. -/
def resolveIdentity (adminIds : List String) (epicUser : EpicUser) (newId : String)
    (st : St) : User × St :=
  match st.users.find? (fun u => decide (u.epicId = epicUser.accountId)) with
  | some user =>
    let updated := { user with nickname := epicUser.displayName.getD user.nickname }
    (updated, { st with users := st.users.map (fun u => if u.id = user.id then updated else u) })
  | none =>
    let role := if epicUser.accountId ∈ adminIds then Role.ADMIN else Role.USER
    let nickname :=
      match epicUser.displayName with
      | some d => if d = "" then "User_" ++ lastN 8 epicUser.accountId else d
      | none => "User_" ++ lastN 8 epicUser.accountId
    let user : User :=
      { id := newId
        epicId := epicUser.accountId
        nickname := nickname
        balance := 0
        role := role
        isBanned := false
        lastSubmission := none }
    (user, { st with users := st.users ++ [user] })

/-- An application step: one call to any state-changing handler (reads
leave the state untouched and are omitted here). -/
inductive Step where
  | screate (dbFails : Bool) (user : User) (body : CreateBody) (file : Option FileMeta)
      (sid : String) (now : Nat)
  | sreview (failAt : Option Nat) (admin : User) (sid : String) (body : ReviewBody) (now : Nat)
  | sbulk (admin : User) (body : BulkBody) (now : Nat)
  | sdelete (user : User) (sid : String)
  | supdateUser (admin : User) (targetId : String) (body : UpdateUserBody)
  | saddBalance (failAt : Option Nat) (admin : User) (targetId : String)
      (body : AddBalanceBody) (now : Nat)
  | sresolve (adminIds : List String) (epicUser : EpicUser) (newId : String)

/-- State effect of one step (the response is dropped). -/
def stepSt : Step → St → St
  | .screate dbFails user body file sid now, st => (createSubmission dbFails user body file sid now st).2
  | .sreview failAt admin sid body now, st => (reviewSubmission failAt admin sid body now st).2
  | .sbulk admin body now, st => (bulkReview admin body now st).2
  | .sdelete user sid, st => (deleteSubmission user sid st).2
  | .supdateUser admin targetId body, st => (updateUser admin targetId body st).2
  | .saddBalance failAt admin targetId body now, st => (addBalance failAt admin targetId body now st).2
  | .sresolve adminIds epicUser newId, st => (resolveIdentity adminIds epicUser newId st).2

/-- States reachable from the empty database through handler calls. -/
inductive Reachable : St → Prop where
  | init : Reachable St.init
  | step (a : Step) {st : St} : Reachable st → Reachable (stepSt a st)

/-- Per-row field conditions on a submission: a PENDING row carries neither
a reject reason nor a reviewer; a REJECTED row carries a non-empty reject
reason; a terminal row carries a reviewer. -/
def subFieldsOk (s : Submission) : Prop :=
  (s.status = SubmissionStatus.PENDING → s.rejectReason = none ∧ s.reviewedBy = none)
  ∧ (s.status = SubmissionStatus.REJECTED → s.rejectReason ≠ none ∧ s.rejectReason ≠ some "")
  ∧ (s.status ≠ SubmissionStatus.PENDING → s.reviewedBy ≠ none)

instance (s : Submission) : Decidable (subFieldsOk s) := by
  unfold subFieldsOk
  infer_instance

/-- Database invariant maintained by every handler: primary keys of the
submissions table are pairwise distinct and every row satisfies the field
conditions. -/
def Inv (st : St) : Prop :=
  (st.submissions.map Submission.id).Nodup ∧ ∀ s ∈ st.submissions, subFieldsOk s

instance (st : St) : Decidable (Inv st) := by
  unfold Inv
  infer_instance

/-- Authenticated request shapes of the three routers, with the handler
arguments folded into the constructors; the read-only GET endpoints carry
nothing because they do not write. -/
inductive Request where
  | listSubmissions
  | getSubmission (sid : String)
  | createSub (dbFails : Bool) (body : CreateBody) (file : Option FileMeta) (sid : String) (now : Nat)
  | deleteSub (sid : String)
  | metaCategories
  | metaLimits
  | profile
  | userStats
  | userPayouts
  | userDashboard
  | dashboardPage
  | adminPage
  | adminStats
  | adminSubmissions
  | review (failAt : Option Nat) (sid : String) (body : ReviewBody) (now : Nat)
  | bulkReviewReq (body : BulkBody) (now : Nat)
  | adminUsers
  | updateUserReq (targetId : String) (body : UpdateUserBody)
  | addBalanceReq (failAt : Option Nat) (targetId : String) (body : AddBalanceBody) (now : Nat)
  | adminLogsPage

/-- Outcome of the authentication guard. -/
inductive Outcome where
  | unauthorized
  | handled
deriving DecidableEq, Repr

/-- Handler body reached once isAuthenticated has passed; the admin router
additionally runs isAdmin before its handlers, and the GET endpoints
perform reads only. -/
def handleAuthed (u : User) (r : Request) (st : St) : St :=
  match r with
  | .listSubmissions => st
  | .getSubmission _ => st
  | .createSub dbFails body file sid now => (createSubmission dbFails u body file sid now st).2
  | .deleteSub sid => (deleteSubmission u sid st).2
  | .metaCategories => st
  | .metaLimits => st
  | .profile => st
  | .userStats => st
  | .userPayouts => st
  | .userDashboard => st
  | .dashboardPage => st
  | .adminPage => st
  | .adminStats => st
  | .adminSubmissions => st
  | .review failAt sid body now =>
    if isAdminCheck u then (reviewSubmission failAt u sid body now st).2 else st
  | .bulkReviewReq body now =>
    if isAdminCheck u then (bulkReview u body now st).2 else st
  | .adminUsers => st
  | .updateUserReq targetId body =>
    if isAdminCheck u then (updateUser u targetId body st).2 else st
  | .addBalanceReq failAt targetId body now =>
    if isAdminCheck u then (addBalance failAt u targetId body now st).2 else st
  | .adminLogsPage => st

/-- isAuthenticated middleware, wired first on every route above: the
request must carry a session user and that user must not be banned;
otherwise the request is answered 401 (or redirected) before any handler
runs. -/
def dispatch (reqUser : Option User) (r : Request) (st : St) : Outcome × St :=
  match reqUser with
  | none => (.unauthorized, st)
  | some u =>
    if u.isBanned then (.unauthorized, st)
    else (.handled, handleAuthed u r st)

/-- Test fixture: an administrator account. -/
def adminFixture : User :=
  { id := "adm", epicId := "epic-adm", nickname := "Admin", balance := 0,
    role := Role.ADMIN, isBanned := false, lastSubmission := none }

/-- Test fixture: an ordinary user. -/
def userFixture : User :=
  { id := "u1", epicId := "epic-u1", nickname := "Player", balance := 0,
    role := Role.USER, isBanned := false, lastSubmission := none }

/-- Test fixture: a banned user. -/
def bannedFixture : User :=
  { userFixture with id := "u2", epicId := "epic-u2", isBanned := true }

/-- Test fixture: a pending submission owned by userFixture. -/
def pendingFixture : Submission :=
  { id := "s1", userId := "u1", fileUrl := "/uploads/f1.png", fileName := "clip.png",
    fileType := FileType.IMAGE, fileSize := 1024, category := "clips", description := none,
    status := SubmissionStatus.PENDING, rejectReason := none, reviewedBy := none,
    reviewedAt := none }

/-- Test fixture: an approved submission owned by userFixture. -/
def approvedFixture : Submission :=
  { pendingFixture with
    id := "s2"
    status := SubmissionStatus.APPROVED
    reviewedBy := some "adm"
    reviewedAt := some 1 }

/-- Test fixture: a database holding one user, one pending and one approved
submission, and the staged blob of the pending one. -/
def baseSt : St :=
  { users := [userFixture], submissions := [pendingFixture, approvedFixture],
    payouts := [], adminLogs := [], blobs := ["/uploads/f1.png"] }

/-- Test fixture: a database holding only a banned user and one staged
blob, as the create handler sees it right after the multer middleware has
written the upload to disk. -/
def stagedBannedSt : St :=
  { users := [bannedFixture], submissions := [], payouts := [], adminLogs := [],
    blobs := ["/uploads/f1.png"] }

/-- Scenario step: userFixture creates a submission. -/
def createStep : Step :=
  Step.screate false userFixture ⟨some "clips", none⟩
    (some ⟨"f1.png", "clip.png", "image/png", 1024⟩) "s1" 0

/-- Scenario step: the admin approves that submission while also supplying
a reject reason in the same request body. -/
def approveWithReasonStep : Step :=
  Step.sreview none adminFixture "s1" ⟨some "APPROVED", some "spam", none⟩ 1

/-- State reached after the two scenario steps. -/
def scenarioSt : St := stepSt approveWithReasonStep (stepSt createStep St.init)

/-- The submission row produced by the two scenario steps. -/
def scenarioSub : Submission :=
  reviewUpdated adminFixture ⟨some "APPROVED", some "spam", none⟩ 1
    (createdRow userFixture ⟨some "clips", none⟩ ⟨"f1.png", "clip.png", "image/png", 1024⟩ "s1")

/-- A reject reason of 201 characters. -/
def longReason : String := String.mk (List.replicate 201 'a')

theorem logAdminAction_submissions (b : Bool) (a t d : String) (st : St) :
    (logAdminAction b a t d st).submissions = st.submissions := by
  unfold logAdminAction
  split <;> rfl

theorem incrementBalance_submissions (st : St) (uid : String) (amt : Rat) :
    (incrementBalance st uid amt).submissions = st.submissions := rfl

theorem statusOfString_ne_pending (s : Option String) :
    statusOfString s ≠ SubmissionStatus.PENDING := by
  unfold statusOfString
  split <;> simp

theorem updateUser_submissions (a : User) (t : String) (b : UpdateUserBody) (st : St) :
    ((updateUser a t b st).2).submissions = st.submissions := by
  unfold updateUser
  repeat' split
  all_goals simp [logAdminAction_submissions]

theorem addBalance_submissions (failAt : Option Nat) (a : User) (t : String)
    (b : AddBalanceBody) (now : Nat) (st : St) :
    ((addBalance failAt a t b now st).2).submissions = st.submissions := by
  unfold addBalance
  repeat' split
  all_goals simp [logAdminAction_submissions, incrementBalance_submissions]

theorem resolveIdentity_submissions (adminIds : List String) (eu : EpicUser)
    (newId : String) (st : St) :
    ((resolveIdentity adminIds eu newId st).2).submissions = st.submissions := by
  unfold resolveIdentity
  repeat' split
  all_goals rfl

theorem inv_of_submissions_eq {st st' : St} (h : st'.submissions = st.submissions)
    (hinv : Inv st) : Inv st' := by
  unfold Inv at *
  rw [h]
  exact hinv

theorem map_ids_eq {f : Submission → Submission} (h : ∀ s, (f s).id = s.id)
    (l : List Submission) : (l.map f).map Submission.id = l.map Submission.id := by
  rw [List.map_map]
  exact List.map_congr_left fun a _ => h a

theorem eq_of_same_id {l : List Submission} (hnd : (l.map Submission.id).Nodup)
    {s t : Submission} (hs : s ∈ l) (ht : t ∈ l) (h : s.id = t.id) : s = t :=
  List.inj_on_of_nodup_map hnd hs ht h

theorem jsTruthy_some {o : Option String} (h : jsTruthy o = true) :
    ∃ r, o = some r ∧ r ≠ "" := by
  cases o with
  | none => simp [jsTruthy] at h
  | some r =>
    simp [jsTruthy] at h
    exact ⟨r, rfl, h⟩

theorem reviewBodyValid_status {b : ReviewBody} (h : reviewBodyValid b = true) :
    b.status = some "APPROVED" ∨ b.status = some "REJECTED" := by
  simp only [reviewBodyValid, Bool.and_eq_true] at h
  obtain ⟨⟨h1, -⟩, -⟩ := h
  cases hs : b.status with
  | none => rw [hs] at h1; simp at h1
  | some v =>
    rw [hs] at h1
    simp only [decide_eq_true_eq] at h1
    rcases h1 with h1 | h1 <;> simp [hs, h1]

theorem reviewBodyValid_rejected_reason {b : ReviewBody} (h : reviewBodyValid b = true)
    (hr : b.status = some "REJECTED") : ∃ r, b.rejectReason = some r ∧ r ≠ "" := by
  simp only [reviewBodyValid, Bool.and_eq_true] at h
  obtain ⟨⟨-, h2⟩, -⟩ := h
  cases hb : b.rejectReason with
  | none => rw [hb] at h2; simp [hr] at h2
  | some r =>
    rw [hb] at h2
    simp only [decide_eq_true_eq] at h2
    exact ⟨r, rfl, h2⟩

theorem statusOfString_rejected {o : Option String}
    (hval : o = some "APPROVED" ∨ o = some "REJECTED")
    (h : statusOfString o = SubmissionStatus.REJECTED) : o = some "REJECTED" := by
  rcases hval with hv | hv
  · rw [hv] at h
    simp [statusOfString] at h
  · exact hv

theorem findSubmission_id {st : St} {sid : String} {sub : Submission}
    (h : findSubmission st sid = some sub) : sub.id = sid := by
  unfold findSubmission at h
  have hp := List.find?_some h
  simp only [decide_eq_true_eq] at hp
  exact hp

theorem findSubmission_mem {st : St} {sid : String} {sub : Submission}
    (h : findSubmission st sid = some sub) : sub ∈ st.submissions := by
  unfold findSubmission at h
  exact List.mem_of_find?_eq_some h

theorem reviewCommit_submissions (failAt : Option Nat) (admin : User) (sid : String)
    (body : ReviewBody) (now : Nat) (st : St) (sub : Submission) :
    ((reviewCommit failAt admin sid body now st sub).2).submissions =
      (updateSubmissionRow st sid (fun _ => reviewUpdated admin body now sub)).submissions := by
  unfold reviewCommit
  repeat' split
  all_goals simp [logAdminAction_submissions, incrementBalance_submissions]

theorem inv_updateRow {st : St} (hinv : Inv st) {sid : String} {upd : Submission}
    (hid : upd.id = sid) (hok : subFieldsOk upd) :
    Inv (updateSubmissionRow st sid (fun _ => upd)) := by
  obtain ⟨hnd, hall⟩ := hinv
  constructor
  · show ((st.submissions.map fun s => if s.id = sid then upd else s).map Submission.id).Nodup
    rw [map_ids_eq]
    · exact hnd
    · intro s
      by_cases h : s.id = sid
      · simp [h, hid]
      · simp [h]
  · intro x hx
    simp only [updateSubmissionRow, List.mem_map] at hx
    obtain ⟨s, hs, rfl⟩ := hx
    by_cases h : s.id = sid
    · simpa [h] using hok
    · simpa [h] using hall s hs

theorem subFieldsOk_reviewed {sub : Submission} {body : ReviewBody}
    (hval : reviewBodyValid body = true) (admin : User) (now : Nat) :
    subFieldsOk (reviewUpdated admin body now sub) := by
  refine ⟨?_, ?_, ?_⟩
  · intro h
    exact absurd h (statusOfString_ne_pending body.status)
  · intro h
    have hst := statusOfString_rejected (reviewBodyValid_status hval) h
    obtain ⟨r, hr, hne⟩ := reviewBodyValid_rejected_reason hval hst
    simp [reviewUpdated, jsOrNull, hr, hne]
  · intro _
    simp [reviewUpdated]

theorem inv_reviewSubmission (failAt : Option Nat) (admin : User) (sid : String)
    (body : ReviewBody) (now : Nat) {st : St} (hinv : Inv st) :
    Inv (reviewSubmission failAt admin sid body now st).2 := by
  unfold reviewSubmission
  split
  · exact hinv
  next hvalneg =>
    have hval : reviewBodyValid body = true := by
      revert hvalneg
      cases reviewBodyValid body <;> simp
    split
    · exact hinv
    next sub hfind =>
      split
      · exact hinv
      · split
        · exact hinv
        · have hid : sub.id = sid := findSubmission_id hfind
          have hupd : Inv (updateSubmissionRow st sid (fun _ => reviewUpdated admin body now sub)) :=
            inv_updateRow hinv (by simp [reviewUpdated, hid]) (subFieldsOk_reviewed hval admin now)
          exact inv_of_submissions_eq (reviewCommit_submissions failAt admin sid body now st sub) hupd

theorem inv_bulkReview (admin : User) (body : BulkBody) (now : Nat) {st : St} (hinv : Inv st) :
    Inv (bulkReview admin body now st).2 := by
  unfold bulkReview
  split
  · exact hinv
  next ids hids =>
    split
    · exact hinv
    · split
      · exact hinv
      next hstat =>
        split
        · exact hinv
        next hrr =>
          apply inv_of_submissions_eq (logAdminAction_submissions _ _ _ _ _)
          have hval : body.status = some "APPROVED" ∨ body.status = some "REJECTED" := by
            by_contra hcon
            exact hstat (by rw [decide_eq_false hcon]; rfl)
          obtain ⟨hnd, hall⟩ := hinv
          constructor
          · show ((st.submissions.map _).map Submission.id).Nodup
            rw [map_ids_eq]
            · exact hnd
            · intro s
              by_cases h : bulkMatches ids s
              · simp [h]
              · simp [h]
          · intro x hx
            simp only [List.mem_map] at hx
            obtain ⟨s, hs, rfl⟩ := hx
            by_cases h : bulkMatches ids s
            · simp only [h, if_true]
              refine ⟨?_, ?_, ?_⟩
              · intro hp
                exact absurd hp (statusOfString_ne_pending body.status)
              · intro hrej
                have hst : statusOfString body.status = SubmissionStatus.REJECTED := by
                  simpa using hrej
                have hb : body.status = some "REJECTED" := statusOfString_rejected hval hst
                have htr : jsTruthy body.rejectReason = true := by
                  by_contra hcon
                  simp only [Bool.not_eq_true] at hcon
                  exact hrr ⟨hb, by simp [hcon]⟩
                obtain ⟨r, hr, hne⟩ := jsTruthy_some htr
                simp [hst, hr, hne]
              · intro _
                simp
            · simp only [h, if_false]
              exact hall s hs

theorem inv_deleteSubmission (user : User) (sid : String) {st : St} (hinv : Inv st) :
    Inv (deleteSubmission user sid st).2 := by
  unfold deleteSubmission
  split
  · exact hinv
  · obtain ⟨hnd, hall⟩ := hinv
    constructor
    · refine List.Nodup.sublist ?_ hnd
      exact List.Sublist.map _ (List.filter_sublist _)
    · intro x hx
      simp only [List.mem_filter] at hx
      exact hall x hx.1

theorem inv_createSubmission (dbFails : Bool) (u : User) (b : CreateBody)
    (file : Option FileMeta) (sid : String) (now : Nat) {st : St} (hinv : Inv st) :
    Inv (createSubmission dbFails u b file sid now st).2 := by
  unfold createSubmission
  split
  · exact hinv
  · split
    · exact hinv
    · split
      · exact hinv
      next f =>
        split
        · exact hinv
        next hdup =>
          obtain ⟨hnd, hall⟩ := hinv
          have hfresh : ∀ s ∈ st.submissions, s.id ≠ sid := by
            intro s hs
            simp only [Bool.or_eq_true, Bool.not_eq_true, not_or] at hdup
            have h2 := hdup.2
            rw [List.any_eq_false] at h2
            have := h2 s hs
            simpa using this
          constructor
          · show ((st.submissions ++ [createdRow u b f sid]).map Submission.id).Nodup
            rw [List.map_append]
            apply List.Nodup.append hnd (by simp)
            intro x hx hy
            simp only [List.map_cons, List.map_nil, List.mem_singleton] at hy
            simp only [List.mem_map] at hx
            obtain ⟨s, hs, rfl⟩ := hx
            have hsid : s.id = sid := by simpa [createdRow] using hy
            exact hfresh s hs hsid
          · intro x hx
            rcases List.mem_append.mp hx with h | h
            · exact hall x h
            · simp only [List.mem_singleton] at h
              subst h
              simp [subFieldsOk, createdRow]

theorem inv_step (a : Step) {st : St} (hinv : Inv st) : Inv (stepSt a st) := by
  cases a with
  | screate d u b f sid now => exact inv_createSubmission d u b f sid now hinv
  | sreview failAt admin sid b now => exact inv_reviewSubmission failAt admin sid b now hinv
  | sbulk admin b now => exact inv_bulkReview admin b now hinv
  | sdelete u sid => exact inv_deleteSubmission u sid hinv
  | supdateUser a t b => exact inv_of_submissions_eq (updateUser_submissions a t b st) hinv
  | saddBalance f a t b now => exact inv_of_submissions_eq (addBalance_submissions f a t b now st) hinv
  | sresolve ids eu nid => exact inv_of_submissions_eq (resolveIdentity_submissions ids eu nid st) hinv

theorem inv_init : Inv St.init := by
  constructor
  · simp [St.init]
  · intro s hs
    simp [St.init] at hs

theorem reachable_inv {st : St} (h : Reachable st) : Inv st := by
  induction h with
  | init => exact inv_init
  | step a _ ih => exact inv_step a ih

theorem terminal_preserved (a : Step) {st : St} (hinv : Inv st) {s : Submission}
    (hs : s ∈ st.submissions) (hterm : s.status ≠ SubmissionStatus.PENDING) :
    s ∈ (stepSt a st).submissions := by
  cases a with
  | screate d u b f sid now =>
    show s ∈ (createSubmission d u b f sid now st).2.submissions
    unfold createSubmission
    split
    · exact hs
    · split
      · exact hs
      · split
        · exact hs
        · split
          · exact hs
          · exact List.mem_append_left _ hs
  | sreview failAt admin sid b now =>
    show s ∈ (reviewSubmission failAt admin sid b now st).2.submissions
    unfold reviewSubmission
    split
    · exact hs
    · split
      · exact hs
      next sub hfind =>
        split
        · exact hs
        · next hpend =>
          split
          · exact hs
          · rw [reviewCommit_submissions]
            have hpend' : sub.status = SubmissionStatus.PENDING := by
              by_contra hc
              exact hpend hc
            have hneq : s.id ≠ sid := by
              intro heq
              have hsubmem := findSubmission_mem hfind
              have hsubid := findSubmission_id hfind
              have : s = sub := eq_of_same_id hinv.1 hs hsubmem (heq.trans hsubid.symm)
              rw [this, hpend'] at hterm
              exact hterm rfl
            simp only [updateSubmissionRow]
            exact List.mem_map.mpr ⟨s, hs, by simp [hneq]⟩
  | sbulk admin b now =>
    show s ∈ (bulkReview admin b now st).2.submissions
    unfold bulkReview
    split
    · exact hs
    next ids hids =>
      split
      · exact hs
      · split
        · exact hs
        · split
          · exact hs
          · rw [logAdminAction_submissions]
            have hm : bulkMatches ids s = false := by
              simp [bulkMatches, hterm]
            exact List.mem_map.mpr ⟨s, hs, by simp [hm]⟩
  | sdelete u sid =>
    show s ∈ (deleteSubmission u sid st).2.submissions
    unfold deleteSubmission
    split
    · exact hs
    next sub hfind =>
      have hp := List.find?_some hfind
      simp only [decide_eq_true_eq] at hp
      have hsubmem := List.mem_of_find?_eq_some hfind
      have hneq : s.id ≠ sid := by
        intro heq
        have : s = sub := eq_of_same_id hinv.1 hs hsubmem (heq.trans hp.1.symm)
        rw [this, hp.2.2] at hterm
        exact hterm rfl
      exact List.mem_filter.mpr ⟨hs, by simp [hneq]⟩
  | supdateUser a t b =>
    show s ∈ (updateUser a t b st).2.submissions
    rw [updateUser_submissions]
    exact hs
  | saddBalance f a t b now =>
    show s ∈ (addBalance f a t b now st).2.submissions
    rw [addBalance_submissions]
    exact hs
  | sresolve ids eu nid =>
    show s ∈ (resolveIdentity ids eu nid st).2.submissions
    rw [resolveIdentity_submissions]
    exact hs

theorem review_already {failAt : Option Nat} {admin : User} {sid : String} {body : ReviewBody}
    {now : Nat} {st : St} {s : Submission}
    (hval : reviewBodyValid body = true) (hfind : findSubmission st sid = some s)
    (hterm : s.status ≠ SubmissionStatus.PENDING) :
    reviewSubmission failAt admin sid body now st = (ReviewResp.alreadyReviewed, st) := by
  unfold reviewSubmission
  rw [hfind, hval]
  simp [hterm]

theorem findSubmission_congr {st st' : St} (h : st'.submissions = st.submissions) (sid : String) :
    findSubmission st' sid = findSubmission st sid := by
  unfold findSubmission
  rw [h]

theorem findSubmission_updateRow_self {st : St} {sid : String} {sub : Submission}
    (hfind : findSubmission st sid = some sub) (upd : Submission) (hid : upd.id = sid) :
    findSubmission (updateSubmissionRow st sid (fun _ => upd)) sid = some upd := by
  have hsubid : sub.id = sid := findSubmission_id hfind
  unfold findSubmission at hfind ⊢
  show ((st.submissions.map fun s => if s.id = sid then upd else s).find?
      fun s => decide (s.id = sid)) = some upd
  rw [List.find?_map]
  have hpf : ((fun s : Submission => decide (s.id = sid)) ∘ fun s => if s.id = sid then upd else s)
      = fun s : Submission => decide (s.id = sid) := by
    funext s
    by_cases h : s.id = sid
    · simp [h, hid]
    · simp [h]
  rw [hpf, hfind]
  simp [hsubid]

theorem review_ok_inv {failAt : Option Nat} {admin : User} {sid : String} {body : ReviewBody}
    {now : Nat} {st : St} {sub : Submission} {st' : St}
    (h : reviewSubmission failAt admin sid body now st = (ReviewResp.ok sub, st')) :
    findSubmission st' sid = some sub ∧ sub.status ≠ SubmissionStatus.PENDING := by
  unfold reviewSubmission at h
  split at h
  · simp at h
  · split at h
    · simp at h
    next sub₀ hfind =>
      split at h
      · simp at h
      · split at h
        · simp at h
        · have hsubs := reviewCommit_submissions failAt admin sid body now st sub₀
          have hid0 : sub₀.id = sid := findSubmission_id hfind
          unfold reviewCommit at h
          have hupd : sub = reviewUpdated admin body now sub₀ ∧
              st'.submissions = (updateSubmissionRow st sid
                (fun _ => reviewUpdated admin body now sub₀)).submissions := by
            split at h
            · split at h
              · simp at h
              · split at h
                · simp at h
                · simp only [Prod.mk.injEq, ReviewResp.ok.injEq] at h
                  obtain ⟨hsub, hst'⟩ := h
                  refine ⟨hsub.symm, ?_⟩
                  rw [← hst']
                  simp [logAdminAction_submissions, incrementBalance_submissions,
                    updateSubmissionRow]
            · simp only [Prod.mk.injEq, ReviewResp.ok.injEq] at h
              obtain ⟨hsub, hst'⟩ := h
              refine ⟨hsub.symm, ?_⟩
              rw [← hst']
              simp [logAdminAction_submissions, updateSubmissionRow]
          obtain ⟨hsub, hsubs'⟩ := hupd
          constructor
          · rw [findSubmission_congr hsubs' sid, hsub]
            exact findSubmission_updateRow_self hfind _ (by simp [reviewUpdated, hid0])
          · rw [hsub]
            exact statusOfString_ne_pending body.status

/-- C1: the balance credit is not atomic with the payout insert.  On the
review path, when the balance write throws after the status update
(failAt 1), the handler answers 500 yet the submission is left APPROVED
with the user balance unchanged and no payout row; on the add-balance
path, when the payout insert of the Promise.all rejects (failAt 1), the
balance increment still stands with no payout row.  This evaluates the
code at both failing inputs, exhibiting the partial states the claim
says cannot occur. -/
theorem C1_no_atomicity :
    (reviewSubmission (some 1) adminFixture "s1"
        ⟨some "APPROVED", none, some 100⟩ 5 baseSt).1 = ReviewResp.serverError
    ∧ ((findSubmission (reviewSubmission (some 1) adminFixture "s1"
        ⟨some "APPROVED", none, some 100⟩ 5 baseSt).2 "s1").map Submission.status)
        = some SubmissionStatus.APPROVED
    ∧ (reviewSubmission (some 1) adminFixture "s1"
        ⟨some "APPROVED", none, some 100⟩ 5 baseSt).2.users = baseSt.users
    ∧ (reviewSubmission (some 1) adminFixture "s1"
        ⟨some "APPROVED", none, some 100⟩ 5 baseSt).2.payouts = []
    ∧ (addBalance (some 1) adminFixture "u1" ⟨some 50, some "bonus pay"⟩ 6 baseSt).1
        = AddBalanceResp.serverError
    ∧ (addBalance (some 1) adminFixture "u1" ⟨some 50, some "bonus pay"⟩ 6 baseSt).2.users.map
        User.balance = [50]
    ∧ (addBalance (some 1) adminFixture "u1" ⟨some 50, some "bonus pay"⟩ 6 baseSt).2.payouts
        = [] := by
  decide

/-- C2: a submission leaves PENDING at most once.  A well-formed review of
a non-PENDING submission answers the already-reviewed error and changes
nothing; no handler call ever alters or removes a terminal submission
row; and after a review that answered ok, any further well-formed review
of the same id answers the already-reviewed error and changes nothing. -/
theorem C2_pending_leaves_once (st : St) (hinv : Inv st) :
    (∀ (failAt : Option Nat) (admin : User) (sid : String) (body : ReviewBody) (now : Nat)
        (s : Submission), reviewBodyValid body = true →
        findSubmission st sid = some s → s.status ≠ SubmissionStatus.PENDING →
        reviewSubmission failAt admin sid body now st = (ReviewResp.alreadyReviewed, st))
    ∧ (∀ (a : Step) (s : Submission), s ∈ st.submissions →
        s.status ≠ SubmissionStatus.PENDING → s ∈ (stepSt a st).submissions)
    ∧ (∀ (failAt : Option Nat) (admin : User) (sid : String) (body : ReviewBody) (now : Nat)
        (sub : Submission) (st' : St),
        reviewSubmission failAt admin sid body now st = (ReviewResp.ok sub, st') →
        ∀ (failAt₂ : Option Nat) (admin₂ : User) (body₂ : ReviewBody) (now₂ : Nat),
          reviewBodyValid body₂ = true →
          reviewSubmission failAt₂ admin₂ sid body₂ now₂ st' = (ReviewResp.alreadyReviewed, st')) := by
  refine ⟨?_, ?_, ?_⟩
  · intro failAt admin sid body now s hval hfind hterm
    exact review_already hval hfind hterm
  · intro a s hs hterm
    exact terminal_preserved a hinv hs hterm
  · intro failAt admin sid body now sub st' h failAt₂ admin₂ body₂ now₂ hval₂
    obtain ⟨hfind', hterm'⟩ := review_ok_inv h
    exact review_already hval₂ hfind' hterm'

/-- C2 witness: on the concrete two-submission database, reviewing the
already approved submission s2 answers the already-reviewed error and
leaves the database untouched. -/
theorem C2_pending_leaves_once_witness :
    Inv baseSt ∧
    reviewSubmission none adminFixture "s2" ⟨some "APPROVED", none, none⟩ 3 baseSt
      = (ReviewResp.alreadyReviewed, baseSt) := by
  refine ⟨by decide, ?_⟩
  exact (C2_pending_leaves_once baseSt (by decide)).1 none adminFixture "s2"
    ⟨some "APPROVED", none, none⟩ 3 approvedFixture (by decide) (by decide) (by decide)

/-- C3 counterexample: the reachable state scenarioSt (create a submission,
then approve it with a reject reason in the body) holds an APPROVED
submission that carries the reject reason spam, because the single-review
handler stores value.rejectReason or null for approvals as well, so the
reject reason is not present only on REJECTED rows as the claim states. -/
theorem C3_reject_reason_on_approved :
    Reachable scenarioSt
    ∧ ∃ s ∈ scenarioSt.submissions,
        s.status = SubmissionStatus.APPROVED ∧ s.rejectReason = some "spam" := by
  constructor
  · exact Reachable.step approveWithReasonStep (Reachable.step createStep Reachable.init)
  · decide

/-- C3 amended: in every reachable state, a PENDING submission carries
neither reject reason nor reviewer; a REJECTED submission carries a
non-empty reject reason; a terminal submission carries a reviewer; and a
terminal submission row is never changed or removed by any later handler
call.  An APPROVED submission, however, carries a reject reason exactly
when one was supplied in the approving request body. -/
theorem C3_review_fields (st : St) (h : Reachable st) :
    (∀ s ∈ st.submissions,
      (s.status = SubmissionStatus.PENDING → s.rejectReason = none ∧ s.reviewedBy = none)
      ∧ (s.status = SubmissionStatus.REJECTED →
          s.rejectReason ≠ none ∧ s.rejectReason ≠ some "")
      ∧ (s.status ≠ SubmissionStatus.PENDING → s.reviewedBy ≠ none))
    ∧ (∀ (a : Step) (s : Submission), s ∈ st.submissions →
        s.status ≠ SubmissionStatus.PENDING → s ∈ (stepSt a st).submissions) := by
  have hinv := reachable_inv h
  exact ⟨hinv.2, fun a s hs ht => terminal_preserved a hinv hs ht⟩

/-- C3 witness: applying the amended theorem to the reachable scenario
state shows its approved submission indeed records a reviewer. -/
theorem C3_review_fields_witness : scenarioSub.reviewedBy ≠ none := by
  have hr : Reachable scenarioSt :=
    Reachable.step approveWithReasonStep (Reachable.step createStep Reachable.init)
  exact ((C3_review_fields scenarioSt hr).1 scenarioSub (by decide)).2.2 (by decide)

/-- C4: a bulk review that answers ok leaves users and payouts untouched
(no bonus), keeps the table length, changes exactly the pending
submissions among the given ids (rewriting them with the new status,
reviewer and timestamp), keeps every other submission unchanged, and
returns the number of rows matched by the conditional update, which is
the number actually changed. -/
theorem C4_bulk_review (admin : User) (ids : List String) (stat rr : Option String)
    (now : Nat) (st : St) (c : Nat) (st' : St)
    (h : bulkReview admin ⟨some ids, stat, rr⟩ now st = (BulkResp.ok c, st')) :
    st'.users = st.users
    ∧ st'.payouts = st.payouts
    ∧ c = (st.submissions.filter (bulkMatches ids)).length
    ∧ st'.submissions.length = st.submissions.length
    ∧ (∀ s ∈ st.submissions, bulkMatches ids s = false → s ∈ st'.submissions)
    ∧ (∀ s ∈ st.submissions, bulkMatches ids s = true →
        { s with
          status := statusOfString stat
          rejectReason := if statusOfString stat = SubmissionStatus.REJECTED then rr else none
          reviewedBy := some admin.id
          reviewedAt := some now } ∈ st'.submissions) := by
  unfold bulkReview at h
  dsimp only at h
  split at h
  · simp at h
  · split at h
    · simp at h
    · split at h
      · simp at h
      · simp only [logAdminAction, if_neg (by simp : ¬(false = true)), Prod.mk.injEq,
          BulkResp.ok.injEq] at h
        obtain ⟨hc, hst'⟩ := h
        refine ⟨?_, ?_, hc.symm, ?_, ?_, ?_⟩
        · rw [← hst']
        · rw [← hst']
        · rw [← hst']
          simp
        · intro s hs hm
          rw [← hst']
          simp only [List.mem_map]
          exact ⟨s, hs, by simp [hm]⟩
        · intro s hs hm
          rw [← hst']
          simp only [List.mem_map]
          exact ⟨s, hs, by simp [hm]⟩

/-- C4 witness: over the mixed set holding the pending s1 and the already
approved s2, bulk approval counts exactly one row and touches neither
users nor payouts. -/
theorem C4_bulk_review_witness :
    (bulkReview adminFixture ⟨some ["s1", "s2"], some "APPROVED", none⟩ 4 baseSt).2.users
      = baseSt.users
    ∧ 1 = (baseSt.submissions.filter (bulkMatches ["s1", "s2"])).length := by
  have h := C4_bulk_review adminFixture ["s1", "s2"] (some "APPROVED") none 4 baseSt 1
    (bulkReview adminFixture ⟨some ["s1", "s2"], some "APPROVED", none⟩ 4 baseSt).2
    (by decide)
  exact ⟨h.1, h.2.2.1⟩

set_option maxRecDepth 8192 in
/-- C5 counterexample: the review schema puts no maximum length on the
reject reason, so a 201-character reason passes validation and the
rejection goes through, contradicting the claimed 200-character cap. -/
theorem C5_no_length_cap :
    longReason.length = 201
    ∧ reviewBodyValid ⟨some "REJECTED", some longReason, none⟩ = true
    ∧ (reviewSubmission none adminFixture "s1"
        ⟨some "REJECTED", some longReason, none⟩ 5 baseSt).1
      = ReviewResp.ok (reviewUpdated adminFixture
          ⟨some "REJECTED", some longReason, none⟩ 5 pendingFixture) := by
  refine ⟨by decide, by decide, by decide⟩

/-- C5 amended: for a REJECTED review the reject reason is required and
must be non-empty (Joi strings reject the empty string), and a review
carrying an empty or missing reason fails validation and returns with
the database untouched — no status change and no audit entry; but no
200-character maximum is enforced. -/
theorem C5_reject_reason_required (failAt : Option Nat) (admin : User) (sid : String)
    (rr : Option String) (b : Option Rat) (now : Nat) (st : St)
    (h : rr = none ∨ rr = some "") :
    reviewBodyValid ⟨some "REJECTED", rr, b⟩ = false
    ∧ reviewSubmission failAt admin sid ⟨some "REJECTED", rr, b⟩ now st
        = (ReviewResp.joiError, st) := by
  have hv : reviewBodyValid ⟨some "REJECTED", rr, b⟩ = false := by
    rcases h with h | h <;> subst h <;> simp [reviewBodyValid]
  exact ⟨hv, by simp [reviewSubmission, hv]⟩

/-- C5 witness: rejecting the pending s1 with an empty reason fails
validation and leaves the database unchanged. -/
theorem C5_reject_reason_required_witness :
    reviewSubmission none adminFixture "s1" ⟨some "REJECTED", some "", none⟩ 5 baseSt
      = (ReviewResp.joiError, baseSt) :=
  (C5_reject_reason_required none adminFixture "s1" (some "") none 5 baseSt (Or.inr rfl)).2

/-- C6: canModifyUser always answers false on the caller themself,
whatever the role; for any other target it answers true whenever the
caller is ADMIN or MODERATOR; and the user-update route refuses any patch
carrying a role when the caller is not ADMIN, leaving the database
untouched and never answering ok. -/
theorem C6_can_modify_user (u : User) (t : String) (admin : User) (tid : String)
    (body : UpdateUserBody) (st : St) :
    canModifyUser u u.id = false
    ∧ (u.id ≠ t → (u.role = Role.ADMIN ∨ u.role = Role.MODERATOR) → canModifyUser u t = true)
    ∧ (body.role.isSome = true → admin.role ≠ Role.ADMIN →
        (updateUser admin tid body st).2 = st
        ∧ ∀ u', (updateUser admin tid body st).1 ≠ UpdateUserResp.ok u') := by
  refine ⟨?_, ?_, ?_⟩
  · simp [canModifyUser]
  · intro hne _
    simp [canModifyUser, hne]
  · intro hrole hadmin
    unfold updateUser
    split
    · exact ⟨rfl, by simp⟩
    · split
      · exact ⟨rfl, by simp⟩
      · split
        · exact ⟨rfl, by simp⟩
        · rw [if_pos ⟨hrole, hadmin⟩]
          exact ⟨rfl, by simp⟩

/-- C6 witness: the admin fixture cannot modify itself but can modify the
other user, and a moderator attempting a role change is refused with the
database untouched. -/
theorem C6_can_modify_user_witness :
    canModifyUser adminFixture adminFixture.id = false
    ∧ canModifyUser adminFixture "u1" = true
    ∧ (updateUser { adminFixture with role := Role.MODERATOR } "u1"
        ⟨some "ADMIN", none, none⟩ baseSt).2 = baseSt := by
  have h := C6_can_modify_user adminFixture "u1"
    { adminFixture with role := Role.MODERATOR } "u1" ⟨some "ADMIN", none, none⟩ baseSt
  exact ⟨h.1, h.2.1 (by decide) (Or.inl (by decide)),
    (h.2.2 (by decide) (by decide)).1⟩

/-- C7 counterexample: deleting the approved submission s2, owned by the
requesting user, answers the 404 not-found response (the handler folds
owner, id and PENDING into one findFirst and has no distinct
invalid-state outcome), not the InvalidStateError the claim requires for
terminal submissions. -/
theorem C7_terminal_delete_is_not_found :
    deleteSubmission userFixture "s2" baseSt = (DeleteResp.notFound, baseSt)
    ∧ approvedFixture ∈ baseSt.submissions
    ∧ approvedFixture.userId = userFixture.id
    ∧ approvedFixture.status = SubmissionStatus.APPROVED := by
  decide

/-- C7 amended: delete succeeds exactly when some submission with the
given id is owned by the caller and PENDING, removing it; in every other
case — terminal status, different owner, or absent id — it fails with the
single NotFound response and the database is unchanged. -/
theorem C7_delete_only_pending_owned (u : User) (sid : String) (st : St) :
    ((∀ s ∈ st.submissions,
        ¬(s.id = sid ∧ s.userId = u.id ∧ s.status = SubmissionStatus.PENDING)) →
      deleteSubmission u sid st = (DeleteResp.notFound, st))
    ∧ ((∃ s ∈ st.submissions,
        s.id = sid ∧ s.userId = u.id ∧ s.status = SubmissionStatus.PENDING) →
      (deleteSubmission u sid st).1 = DeleteResp.ok
      ∧ ∀ s' ∈ (deleteSubmission u sid st).2.submissions, s'.id ≠ sid) := by
  constructor
  · intro hnone
    unfold deleteSubmission
    have hfn : st.submissions.find? (fun s =>
        decide (s.id = sid ∧ s.userId = u.id ∧ s.status = SubmissionStatus.PENDING)) = none := by
      rw [List.find?_eq_none]
      intro x hx
      simp only [decide_eq_true_eq]
      exact hnone x hx
    rw [hfn]
  · rintro ⟨s, hs, hcond⟩
    unfold deleteSubmission
    split
    next hfn =>
      rw [List.find?_eq_none] at hfn
      have := hfn s hs
      simp only [decide_eq_true_eq] at this
      exact absurd hcond this
    next sub hfind =>
      refine ⟨rfl, ?_⟩
      intro s' hs'
      simp only [List.mem_filter, decide_eq_true_eq] at hs'
      exact hs'.2

/-- C7 witness: deleting the pending submission s1, owned by the caller,
succeeds. -/
theorem C7_delete_only_pending_owned_witness :
    (deleteSubmission userFixture "s1" baseSt).1 = DeleteResp.ok :=
  ((C7_delete_only_pending_owned userFixture "s1" baseSt).2
    ⟨pendingFixture, by decide, by decide⟩).1

theorem lastN_length (n : Nat) (s : String) : (lastN n s).length = min n s.length := by
  simp only [lastN, String.length, List.length_drop]
  omega

theorem lastN_suffix (n : Nat) (s : String) : ∃ p, s = p ++ lastN n s := by
  refine ⟨String.mk (s.data.take (s.data.length - n)), ?_⟩
  show s = String.mk (s.data.take (s.data.length - n) ++ s.data.drop (s.data.length - n))
  rw [List.take_append_drop]

/-- C8 counterexample: for the six-character external id abc123,
JavaScript slice (-8) yields the whole id, so the generated nickname is
User_abc123, not the eight-character suffix User_abc123ab the claim
demands; role USER is assigned as claimed. -/
theorem C8_nickname_suffix :
    (resolveIdentity [] ⟨"abc123", none⟩ "u9" St.init).1.nickname = "User_abc123"
    ∧ "User_abc123" ≠ "User_abc123ab"
    ∧ (resolveIdentity [] ⟨"abc123", none⟩ "u9" St.init).1.role = Role.USER := by
  decide

/-- C8 amended: on first sight of an external id, resolveIdentity creates
a user whose role is ADMIN exactly when the id is in the allow-list and
USER otherwise; the nickname is the provider display name when that is
present and non-empty, and otherwise User_ followed by the last
min 8 (length) characters of the external id (the whole id when it is
shorter than eight characters); the new user is appended to the users
table. -/
theorem C8_new_user_shape (adminIds : List String) (eu : EpicUser) (newId : String) (st : St)
    (habsent : ∀ u ∈ st.users, u.epicId ≠ eu.accountId) :
    (resolveIdentity adminIds eu newId st).1.role
        = (if eu.accountId ∈ adminIds then Role.ADMIN else Role.USER)
    ∧ (∀ d, eu.displayName = some d → d ≠ "" →
        (resolveIdentity adminIds eu newId st).1.nickname = d)
    ∧ ((eu.displayName = none ∨ eu.displayName = some "") →
        ∃ suffix, (resolveIdentity adminIds eu newId st).1.nickname = "User_" ++ suffix
          ∧ suffix.length = min 8 eu.accountId.length
          ∧ ∃ p, eu.accountId = p ++ suffix)
    ∧ (resolveIdentity adminIds eu newId st).2.users
        = st.users ++ [(resolveIdentity adminIds eu newId st).1] := by
  have hfind : st.users.find? (fun u => decide (u.epicId = eu.accountId)) = none := by
    rw [List.find?_eq_none]
    intro x hx
    simpa using habsent x hx
  unfold resolveIdentity
  rw [hfind]
  refine ⟨rfl, ?_, ?_, rfl⟩
  · intro d hd hne
    rw [hd]
    simp [hne]
  · intro hd
    refine ⟨lastN 8 eu.accountId, ?_, lastN_length 8 eu.accountId, lastN_suffix 8 eu.accountId⟩
    rcases hd with hd | hd <;> rw [hd]
    rfl

/-- C8 witness: resolving the unknown id abc123 against the empty
database with an empty allow-list creates a USER. -/
theorem C8_new_user_shape_witness :
    (resolveIdentity [] ⟨"abc123", none⟩ "u9" St.init).1.role = Role.USER := by
  have h := (C8_new_user_shape [] ⟨"abc123", none⟩ "u9" St.init (by decide)).1
  simpa using h

/-- C9 counterexample: a banned user posting a valid file sees the 403
before any record is created, but the blob that multer already staged is
left in the upload directory — the handler unlinks it only in its catch
block — so a failed create does leave no record plus an orphaned blob,
contradicting the claimed cleanup. -/
theorem C9_orphan_blob_on_validation_failure :
    createSubmission false bannedFixture ⟨some "clips", none⟩
        (some ⟨"f1.png", "clip.png", "image/png", 1024⟩) "s9" 3 stagedBannedSt
      = (CreateResp.banned, stagedBannedSt)
    ∧ "/uploads/f1.png" ∈ stagedBannedSt.blobs
    ∧ stagedBannedSt.submissions = [] := by
  decide

/-- C9 amended: every validation failure of create (banned caller, Joi
failure on category or description, missing file) returns before any
submission row is created and leaves the database — including the staged
blob — untouched; only when a database write throws does the catch block
remove the staged blob, again without creating a row. -/
theorem C9_create_cleanup (dbFails : Bool) (u : User) (body : CreateBody) (f : FileMeta)
    (sid : String) (now : Nat) (st : St) :
    (u.isBanned = true →
      createSubmission dbFails u body (some f) sid now st = (CreateResp.banned, st))
    ∧ (u.isBanned = false → createBodyValid body = false →
      createSubmission dbFails u body (some f) sid now st = (CreateResp.joiError, st))
    ∧ (u.isBanned = false → createBodyValid body = true →
      createSubmission dbFails u body none sid now st = (CreateResp.fileRequired, st))
    ∧ (u.isBanned = false → createBodyValid body = true → dbFails = true →
      (createSubmission dbFails u body (some f) sid now st).1 = CreateResp.serverError
      ∧ (createSubmission dbFails u body (some f) sid now st).2.submissions = st.submissions
      ∧ "/uploads/" ++ f.filename ∉ (createSubmission dbFails u body (some f) sid now st).2.blobs) := by
  refine ⟨?_, ?_, ?_, ?_⟩
  · intro hb
    simp [createSubmission, hb]
  · intro hb hv
    simp [createSubmission, hb, hv]
  · intro hb hv
    simp [createSubmission, hb, hv]
  · intro hb hv hdb
    subst hdb
    refine ⟨?_, ?_, ?_⟩
    · simp [createSubmission, hb, hv]
    · simp [createSubmission, hb, hv]
    · simp [createSubmission, hb, hv, List.mem_filter]

/-- C9 witness: with a clean database, a banned caller is turned away with
everything unchanged. -/
theorem C9_create_cleanup_witness :
    createSubmission false bannedFixture ⟨some "clips", none⟩
        (some ⟨"f2.png", "clip.png", "image/png", 10⟩) "s9" 3 baseSt
      = (CreateResp.banned, baseSt) :=
  (C9_create_cleanup false bannedFixture ⟨some "clips", none⟩
    ⟨"f2.png", "clip.png", "image/png", 10⟩ "s9" 3 baseSt).1 rfl

/-- C10: the isAuthenticated guard runs ahead of every handler of the
submissions, user and admin routers and of the dashboard and admin pages,
and it rejects a banned session user with the authentication failure
before the handler can run, so no request by a banned user changes any
state. -/
theorem C10_banned_rejected_everywhere (u : User) (r : Request) (st : St)
    (h : u.isBanned = true) :
    dispatch (some u) r st = (Outcome.unauthorized, st) := by
  unfold dispatch
  simp [h]

/-- C10 witness: the banned fixture requesting the profile endpoint is
rejected with the database untouched. -/
theorem C10_banned_rejected_everywhere_witness :
    dispatch (some bannedFixture) Request.profile baseSt = (Outcome.unauthorized, baseSt) :=
  C10_banned_rejected_everywhere bannedFixture Request.profile baseSt rfl

end VictoryWeb
